import Mathlib

set_option maxRecDepth 100000

/-!
Verification of `library/aes_alt.c` from yanrayw/mbedtls: the alternative
AES-decrypt backend stub, its build-time selection guards, and the
reference-backend contract it substitutes for (the FIPS-197 block
cipher), as a shallow embedding in Lean 4.
-/

/- ==== Part 1: the alternative-backend stub (library/aes_alt.c) ==== -/

/-- Modelled from the spec: the opaque key-schedule context
(`mbedtls_aes_context`, declared in `mbedtls/aes.h`, which is not part of
src/): expanded round-key words plus a rounds/key-length discriminant.
The stub under verification treats it as fully opaque. -/
structure mbedtls_aes_context where
  nr : Nat
  rk : List Nat
deriving DecidableEq

/-- Modelled from the spec: the `MBEDTLS_ERR_PLATFORM_FEATURE_UNSUPPORTED`
error code from mbedtls (header not part of src/): the nonzero, negative
FeatureUnsupported failure value the stub returns. -/
def MBEDTLS_ERR_PLATFORM_FEATURE_UNSUPPORTED : Int := -0x0072

/-- Shallow embedding of `mbedtls_internal_aes_decrypt` from
`library/aes_alt.c` lines 28-37.  The C body casts its three arguments to
`void` and returns `MBEDTLS_ERR_PLATFORM_FEATURE_UNSUPPORTED`.  Machine
state is passed explicitly: the result is the returned `int` together
with the final contents of the context and of the two byte buffers;
since the body performs no store, those final contents are the initial
ones, unchanged. -/
def mbedtls_internal_aes_decrypt (ctx : mbedtls_aes_context)
    (input output : List Nat) :
    Int × mbedtls_aes_context × List Nat × List Nat :=
  (MBEDTLS_ERR_PLATFORM_FEATURE_UNSUPPORTED, ctx, input, output)

/-- Pointer-lifted embedding of the same C body, for NULL-safety: each
argument is `Option`-valued (`none` standing for a NULL pointer), and a
dereference of an argument in the body would be modelled by `Option.bind`,
collapsing the whole call to `none` when that argument is NULL.  The body
of `mbedtls_internal_aes_decrypt` contains no dereference at all (only
`(void)` casts), so the embedded call is built without binding on any
argument and yields `some` result for every argument. -/
def mbedtls_internal_aes_decrypt_anyPtr (ctx : Option mbedtls_aes_context)
    (input output : Option (List Nat)) :
    Option (Int × Option mbedtls_aes_context × Option (List Nat) × Option (List Nat)) :=
  some (MBEDTLS_ERR_PLATFORM_FEATURE_UNSUPPORTED, ctx, input, output)

/- ==== Part 2: build-time backend selection ==== -/

/-- A build configuration: whether each of the two preprocessor guards
appearing in `library/aes_alt.c` (lines 22 and 27) is defined. -/
structure BuildConfig where
  MBEDTLS_AES_C : Bool
  MBEDTLS_AES_DECRYPT_ALT : Bool
deriving DecidableEq

/-- Embedding of the preprocessor structure of `library/aes_alt.c`: the
alternative stub definition of `mbedtls_internal_aes_decrypt` is compiled
exactly when both `MBEDTLS_AES_C` (line 22) and `MBEDTLS_AES_DECRYPT_ALT`
(line 27) are defined. -/
def aes_alt_provides_decrypt (cfg : BuildConfig) : Bool :=
  cfg.MBEDTLS_AES_C && cfg.MBEDTLS_AES_DECRYPT_ALT

/-- Modelled from the spec: the reference implementation of the decrypt
direction (`library/aes.c`, not part of src/) is compiled exactly when
AES is enabled and the alternative is not declared - "when an alternative
implementation is enabled for a direction, the reference implementation
for that direction must be excluded from the build". -/
def reference_provides_decrypt (cfg : BuildConfig) : Bool :=
  cfg.MBEDTLS_AES_C && !cfg.MBEDTLS_AES_DECRYPT_ALT

/- ==== Part 3: the reference backend (FIPS-197 AES), modelled from the
spec.  `library/aes.c` is not part of src/; the spec requires the
reference transform to be "bit-exact with the standard algorithm's
defined output", so the model below is the standard cipher of FIPS-197:
bytes are `Fin 256`, a word/column is four bytes, the state is sixteen
bytes in column-major order (state byte `r + 4*c` is input byte
`r + 4*c`). ==== -/

/-- A byte of the AES state: a natural number below 256. -/
abbrev Byte := Fin 256

/-- Bytewise exclusive or, the field addition of GF(2^8). -/
def bxor (a b : Byte) : Byte :=
  ⟨a.val ^^^ b.val,
    Nat.xor_lt_two_pow (show a.val < 2 ^ 8 from a.isLt) (show b.val < 2 ^ 8 from b.isLt)⟩

/-- Multiplication by x in GF(2^8) modulo the AES polynomial x^8+x^4+x^3+x+1:
shift left one bit and, when the top bit was set, reduce by 0x1b. -/
def xtime (b : Byte) : Byte :=
  ⟨((b.val <<< 1) ^^^ (if b.val &&& 0x80 = 0x80 then 0x1b else 0)) &&& 0xff,
    Nat.lt_of_le_of_lt Nat.and_le_right (by decide)⟩

/-- Russian-peasant multiplication in GF(2^8), one step per bit of `b`. -/
def gfMulAux : Nat → Byte → Byte → Byte
  | 0, _, _ => 0
  | n + 1, a, b =>
    bxor (if b.val % 2 = 1 then a else 0)
      (gfMulAux n (xtime a)
        ⟨b.val / 2, Nat.lt_of_le_of_lt (Nat.div_le_self _ _) b.isLt⟩)

/-- Multiplication in GF(2^8) over the AES polynomial. -/
def gfMul (a b : Byte) : Byte := gfMulAux 8 a b

/-- The S-box of FIPS-197 (figure 7): the table of the byte substitution
x -> affine(inverse of x in GF(2^8)), as the standard presents it. -/
def sboxTable : List Byte :=
  [0x63, 0x7c, 0x77, 0x7b, 0xf2, 0x6b, 0x6f, 0xc5,
   0x30, 0x01, 0x67, 0x2b, 0xfe, 0xd7, 0xab, 0x76,
   0xca, 0x82, 0xc9, 0x7d, 0xfa, 0x59, 0x47, 0xf0,
   0xad, 0xd4, 0xa2, 0xaf, 0x9c, 0xa4, 0x72, 0xc0,
   0xb7, 0xfd, 0x93, 0x26, 0x36, 0x3f, 0xf7, 0xcc,
   0x34, 0xa5, 0xe5, 0xf1, 0x71, 0xd8, 0x31, 0x15,
   0x04, 0xc7, 0x23, 0xc3, 0x18, 0x96, 0x05, 0x9a,
   0x07, 0x12, 0x80, 0xe2, 0xeb, 0x27, 0xb2, 0x75,
   0x09, 0x83, 0x2c, 0x1a, 0x1b, 0x6e, 0x5a, 0xa0,
   0x52, 0x3b, 0xd6, 0xb3, 0x29, 0xe3, 0x2f, 0x84,
   0x53, 0xd1, 0x00, 0xed, 0x20, 0xfc, 0xb1, 0x5b,
   0x6a, 0xcb, 0xbe, 0x39, 0x4a, 0x4c, 0x58, 0xcf,
   0xd0, 0xef, 0xaa, 0xfb, 0x43, 0x4d, 0x33, 0x85,
   0x45, 0xf9, 0x02, 0x7f, 0x50, 0x3c, 0x9f, 0xa8,
   0x51, 0xa3, 0x40, 0x8f, 0x92, 0x9d, 0x38, 0xf5,
   0xbc, 0xb6, 0xda, 0x21, 0x10, 0xff, 0xf3, 0xd2,
   0xcd, 0x0c, 0x13, 0xec, 0x5f, 0x97, 0x44, 0x17,
   0xc4, 0xa7, 0x7e, 0x3d, 0x64, 0x5d, 0x19, 0x73,
   0x60, 0x81, 0x4f, 0xdc, 0x22, 0x2a, 0x90, 0x88,
   0x46, 0xee, 0xb8, 0x14, 0xde, 0x5e, 0x0b, 0xdb,
   0xe0, 0x32, 0x3a, 0x0a, 0x49, 0x06, 0x24, 0x5c,
   0xc2, 0xd3, 0xac, 0x62, 0x91, 0x95, 0xe4, 0x79,
   0xe7, 0xc8, 0x37, 0x6d, 0x8d, 0xd5, 0x4e, 0xa9,
   0x6c, 0x56, 0xf4, 0xea, 0x65, 0x7a, 0xae, 0x08,
   0xba, 0x78, 0x25, 0x2e, 0x1c, 0xa6, 0xb4, 0xc6,
   0xe8, 0xdd, 0x74, 0x1f, 0x4b, 0xbd, 0x8b, 0x8a,
   0x70, 0x3e, 0xb5, 0x66, 0x48, 0x03, 0xf6, 0x0e,
   0x61, 0x35, 0x57, 0xb9, 0x86, 0xc1, 0x1d, 0x9e,
   0xe1, 0xf8, 0x98, 0x11, 0x69, 0xd9, 0x8e, 0x94,
   0x9b, 0x1e, 0x87, 0xe9, 0xce, 0x55, 0x28, 0xdf,
   0x8c, 0xa1, 0x89, 0x0d, 0xbf, 0xe6, 0x42, 0x68,
   0x41, 0x99, 0x2d, 0x0f, 0xb0, 0x54, 0xbb, 0x16]

/-- The inverse S-box of FIPS-197 (figure 14). -/
def invSboxTable : List Byte :=
  [0x52, 0x09, 0x6a, 0xd5, 0x30, 0x36, 0xa5, 0x38,
   0xbf, 0x40, 0xa3, 0x9e, 0x81, 0xf3, 0xd7, 0xfb,
   0x7c, 0xe3, 0x39, 0x82, 0x9b, 0x2f, 0xff, 0x87,
   0x34, 0x8e, 0x43, 0x44, 0xc4, 0xde, 0xe9, 0xcb,
   0x54, 0x7b, 0x94, 0x32, 0xa6, 0xc2, 0x23, 0x3d,
   0xee, 0x4c, 0x95, 0x0b, 0x42, 0xfa, 0xc3, 0x4e,
   0x08, 0x2e, 0xa1, 0x66, 0x28, 0xd9, 0x24, 0xb2,
   0x76, 0x5b, 0xa2, 0x49, 0x6d, 0x8b, 0xd1, 0x25,
   0x72, 0xf8, 0xf6, 0x64, 0x86, 0x68, 0x98, 0x16,
   0xd4, 0xa4, 0x5c, 0xcc, 0x5d, 0x65, 0xb6, 0x92,
   0x6c, 0x70, 0x48, 0x50, 0xfd, 0xed, 0xb9, 0xda,
   0x5e, 0x15, 0x46, 0x57, 0xa7, 0x8d, 0x9d, 0x84,
   0x90, 0xd8, 0xab, 0x00, 0x8c, 0xbc, 0xd3, 0x0a,
   0xf7, 0xe4, 0x58, 0x05, 0xb8, 0xb3, 0x45, 0x06,
   0xd0, 0x2c, 0x1e, 0x8f, 0xca, 0x3f, 0x0f, 0x02,
   0xc1, 0xaf, 0xbd, 0x03, 0x01, 0x13, 0x8a, 0x6b,
   0x3a, 0x91, 0x11, 0x41, 0x4f, 0x67, 0xdc, 0xea,
   0x97, 0xf2, 0xcf, 0xce, 0xf0, 0xb4, 0xe6, 0x73,
   0x96, 0xac, 0x74, 0x22, 0xe7, 0xad, 0x35, 0x85,
   0xe2, 0xf9, 0x37, 0xe8, 0x1c, 0x75, 0xdf, 0x6e,
   0x47, 0xf1, 0x1a, 0x71, 0x1d, 0x29, 0xc5, 0x89,
   0x6f, 0xb7, 0x62, 0x0e, 0xaa, 0x18, 0xbe, 0x1b,
   0xfc, 0x56, 0x3e, 0x4b, 0xc6, 0xd2, 0x79, 0x20,
   0x9a, 0xdb, 0xc0, 0xfe, 0x78, 0xcd, 0x5a, 0xf4,
   0x1f, 0xdd, 0xa8, 0x33, 0x88, 0x07, 0xc7, 0x31,
   0xb1, 0x12, 0x10, 0x59, 0x27, 0x80, 0xec, 0x5f,
   0x60, 0x51, 0x7f, 0xa9, 0x19, 0xb5, 0x4a, 0x0d,
   0x2d, 0xe5, 0x7a, 0x9f, 0x93, 0xc9, 0x9c, 0xef,
   0xa0, 0xe0, 0x3b, 0x4d, 0xae, 0x2a, 0xf5, 0xb0,
   0xc8, 0xeb, 0xbb, 0x3c, 0x83, 0x53, 0x99, 0x61,
   0x17, 0x2b, 0x04, 0x7e, 0xba, 0x77, 0xd6, 0x26,
   0xe1, 0x69, 0x14, 0x63, 0x55, 0x21, 0x0c, 0x7d]

/-- The forward S-box lookup: `sboxTable` indexed by the byte value. -/
def sbox (b : Byte) : Byte := sboxTable.getD b.val 0

/-- The inverse S-box lookup: `invSboxTable` indexed by the byte value. -/
def invSbox (s : Byte) : Byte := invSboxTable.getD s.val 0

/-- One column of the AES state, or one word of the key schedule:
four bytes, top row first. -/
abbrev Col := Byte × Byte × Byte × Byte

/-- Componentwise exclusive or on a column. -/
def colXor (u v : Col) : Col :=
  (bxor u.1 v.1, bxor u.2.1 v.2.1, bxor u.2.2.1 v.2.2.1, bxor u.2.2.2 v.2.2.2)

/-- The MixColumns transformation of one column (FIPS-197 section 5.1.3):
multiplication by the circulant matrix (02 03 01 01). -/
def mixCol (c : Col) : Col :=
  match c with
  | (a0, a1, a2, a3) =>
    (bxor (gfMul a0 0x02) (bxor (gfMul a1 0x03) (bxor a2 a3)),
     bxor a0 (bxor (gfMul a1 0x02) (bxor (gfMul a2 0x03) a3)),
     bxor a0 (bxor a1 (bxor (gfMul a2 0x02) (gfMul a3 0x03))),
     bxor (gfMul a0 0x03) (bxor a1 (bxor a2 (gfMul a3 0x02))))

/-- The InvMixColumns transformation of one column (FIPS-197 section
5.3.3): multiplication by the circulant matrix (0e 0b 0d 09). -/
def invMixCol (c : Col) : Col :=
  match c with
  | (a0, a1, a2, a3) =>
    (bxor (gfMul a0 0x0e) (bxor (gfMul a1 0x0b) (bxor (gfMul a2 0x0d) (gfMul a3 0x09))),
     bxor (gfMul a0 0x09) (bxor (gfMul a1 0x0e) (bxor (gfMul a2 0x0b) (gfMul a3 0x0d))),
     bxor (gfMul a0 0x0d) (bxor (gfMul a1 0x09) (bxor (gfMul a2 0x0e) (gfMul a3 0x0b))),
     bxor (gfMul a0 0x0b) (bxor (gfMul a1 0x0d) (bxor (gfMul a2 0x09) (gfMul a3 0x0e))))

/-- The AES state: sixteen bytes, field `b(r + 4*c)` holding row r of
column c, which is byte `r + 4*c` of the input block. -/
structure Block where
  b0 : Byte
  b1 : Byte
  b2 : Byte
  b3 : Byte
  b4 : Byte
  b5 : Byte
  b6 : Byte
  b7 : Byte
  b8 : Byte
  b9 : Byte
  b10 : Byte
  b11 : Byte
  b12 : Byte
  b13 : Byte
  b14 : Byte
  b15 : Byte
deriving DecidableEq

/-- Assemble a state from its four columns. -/
def blockOfCols (c0 c1 c2 c3 : Col) : Block :=
  ⟨c0.1, c0.2.1, c0.2.2.1, c0.2.2.2,
   c1.1, c1.2.1, c1.2.2.1, c1.2.2.2,
   c2.1, c2.2.1, c2.2.2.1, c2.2.2.2,
   c3.1, c3.2.1, c3.2.2.1, c3.2.2.2⟩

/-- Column 0 of a state. -/
def col0 (s : Block) : Col := (s.b0, s.b1, s.b2, s.b3)

/-- Column 1 of a state. -/
def col1 (s : Block) : Col := (s.b4, s.b5, s.b6, s.b7)

/-- Column 2 of a state. -/
def col2 (s : Block) : Col := (s.b8, s.b9, s.b10, s.b11)

/-- Column 3 of a state. -/
def col3 (s : Block) : Col := (s.b12, s.b13, s.b14, s.b15)

/-- SubBytes: the S-box applied to every state byte (FIPS-197 5.1.1). -/
def subBytes (s : Block) : Block :=
  ⟨sbox s.b0, sbox s.b1, sbox s.b2, sbox s.b3,
   sbox s.b4, sbox s.b5, sbox s.b6, sbox s.b7,
   sbox s.b8, sbox s.b9, sbox s.b10, sbox s.b11,
   sbox s.b12, sbox s.b13, sbox s.b14, sbox s.b15⟩

/-- InvSubBytes: the inverse S-box applied to every state byte. -/
def invSubBytes (s : Block) : Block :=
  ⟨invSbox s.b0, invSbox s.b1, invSbox s.b2, invSbox s.b3,
   invSbox s.b4, invSbox s.b5, invSbox s.b6, invSbox s.b7,
   invSbox s.b8, invSbox s.b9, invSbox s.b10, invSbox s.b11,
   invSbox s.b12, invSbox s.b13, invSbox s.b14, invSbox s.b15⟩

/-- ShiftRows: row r of the state is rotated left by r positions
(FIPS-197 5.1.2); byte r + 4*c comes from byte r + 4*((c+r) mod 4). -/
def shiftRows (s : Block) : Block :=
  ⟨s.b0, s.b5, s.b10, s.b15,
   s.b4, s.b9, s.b14, s.b3,
   s.b8, s.b13, s.b2, s.b7,
   s.b12, s.b1, s.b6, s.b11⟩

/-- InvShiftRows: row r of the state is rotated right by r positions
(FIPS-197 5.3.1). -/
def invShiftRows (s : Block) : Block :=
  ⟨s.b0, s.b13, s.b10, s.b7,
   s.b4, s.b1, s.b14, s.b11,
   s.b8, s.b5, s.b2, s.b15,
   s.b12, s.b9, s.b6, s.b3⟩

/-- MixColumns applied to the whole state. -/
def mixColumns (s : Block) : Block :=
  blockOfCols (mixCol (col0 s)) (mixCol (col1 s)) (mixCol (col2 s)) (mixCol (col3 s))

/-- InvMixColumns applied to the whole state. -/
def invMixColumns (s : Block) : Block :=
  blockOfCols (invMixCol (col0 s)) (invMixCol (col1 s)) (invMixCol (col2 s)) (invMixCol (col3 s))

/-- AddRoundKey: the round key is xored into the state bytewise. -/
def addRoundKey (k s : Block) : Block :=
  ⟨bxor k.b0 s.b0, bxor k.b1 s.b1, bxor k.b2 s.b2, bxor k.b3 s.b3,
   bxor k.b4 s.b4, bxor k.b5 s.b5, bxor k.b6 s.b6, bxor k.b7 s.b7,
   bxor k.b8 s.b8, bxor k.b9 s.b9, bxor k.b10 s.b10, bxor k.b11 s.b11,
   bxor k.b12 s.b12, bxor k.b13 s.b13, bxor k.b14 s.b14, bxor k.b15 s.b15⟩

/-- RotWord of the key schedule: cyclic left rotation of a word by one
byte (FIPS-197 5.2). -/
def rotWord (w : Col) : Col :=
  match w with
  | (a0, a1, a2, a3) => (a1, a2, a3, a0)

/-- SubWord of the key schedule: the S-box applied to each byte of a
word (FIPS-197 5.2). -/
def subWord (w : Col) : Col :=
  match w with
  | (a0, a1, a2, a3) => (sbox a0, sbox a1, sbox a2, sbox a3)

/-- The round-constant word Rcon[j] = (x^(j-1), 00, 00, 00) in GF(2^8)
(FIPS-197 5.2); ten constants suffice for all three key lengths. -/
def rcon (j : Nat) : Col :=
  (([0x01, 0x02, 0x04, 0x08, 0x10, 0x20, 0x40, 0x80, 0x1b, 0x36] :
      List Byte).getD (j - 1) 0, 0, 0, 0)

/-- One step of the FIPS-197 key expansion: given the words produced so
far (`w`, of length i >= Nk), the next word w[i] = w[i-Nk] xor temp,
where temp is w[i-1], transformed by SubWord/RotWord/Rcon when i is a
multiple of Nk, and by SubWord alone when Nk > 6 and i mod Nk = 4. -/
def nextWord (nk : Nat) (w : List Col) : Col :=
  let i := w.length
  let temp := w.getD (i - 1) (0, 0, 0, 0)
  let prev := w.getD (i - nk) (0, 0, 0, 0)
  if i % nk = 0 then
    colXor prev (colXor (subWord (rotWord temp)) (rcon (i / nk)))
  else if 6 < nk ∧ i % nk = 4 then
    colXor prev (subWord temp)
  else
    colXor prev temp

/-- Run `n` steps of the key expansion, appending one word per step. -/
def keyExpandAux : Nat → Nat → List Col → List Col
  | _, 0, w => w
  | nk, n + 1, w => keyExpandAux nk n (w ++ [nextWord nk w])

/-- The FIPS-197 key expansion: from the Nk words of the cipher key to
the full 4*(Nr+1) words of the key schedule, Nr = Nk + 6. -/
def keyExpansion (nk : Nat) (key : List Col) : List Col :=
  keyExpandAux nk (4 * (nk + 7) - nk) key

/-- Group the words of the key schedule into round keys, four words (one
state-shaped block) per round. -/
def wordsToBlocks : List Col → List Block
  | w0 :: w1 :: w2 :: w3 :: rest => blockOfCols w0 w1 w2 w3 :: wordsToBlocks rest
  | _ => []

/-- The sequence of Nr+1 round keys of a cipher key of Nk words. -/
def roundKeys (nk : Nat) (key : List Col) : List Block :=
  wordsToBlocks (keyExpansion nk key)

/-- A normal encryption round: SubBytes, ShiftRows, MixColumns,
AddRoundKey (FIPS-197 figure 5). -/
def aesRound (k s : Block) : Block :=
  addRoundKey k (mixColumns (shiftRows (subBytes s)))

/-- The final encryption round: as `aesRound` but without MixColumns. -/
def aesFinalRound (k s : Block) : Block :=
  addRoundKey k (shiftRows (subBytes s))

/-- The encryption rounds after the initial AddRoundKey: one `aesRound`
per round key except the last, which drives `aesFinalRound`. -/
def encryptRounds : List Block → Block → Block
  | [], s => s
  | [k], s => aesFinalRound k s
  | k :: k2 :: ks, s => encryptRounds (k2 :: ks) (aesRound k s)

/-- The inverse of `aesRound`: undo AddRoundKey, MixColumns, ShiftRows,
SubBytes in reverse order. -/
def invRound (k s : Block) : Block :=
  invSubBytes (invShiftRows (invMixColumns (addRoundKey k s)))

/-- The inverse of `aesFinalRound`. -/
def invFinalRound (k s : Block) : Block :=
  invSubBytes (invShiftRows (addRoundKey k s))

/-- The decryption rounds: the exact inverse composition of
`encryptRounds` over the same round-key list. -/
def decryptRounds : List Block → Block → Block
  | [], s => s
  | [k], s => invFinalRound k s
  | k :: k2 :: ks, s => invRound k (decryptRounds (k2 :: ks) s)

/-- Modelled from the spec: the reference backend's encrypt transform
(`mbedtls_internal_aes_encrypt` of `library/aes.c`, not part of src/),
"bit-exact with the standard algorithm": the FIPS-197 cipher over a
round-key sequence - initial AddRoundKey, then the rounds. -/
def aes_encrypt_block (rks : List Block) (b : Block) : Block :=
  match rks with
  | [] => b
  | k0 :: ks => encryptRounds ks (addRoundKey k0 b)

/-- Modelled from the spec: the reference backend's decrypt transform
(`mbedtls_internal_aes_decrypt` of `library/aes.c`, not part of src/),
the inverse cipher of FIPS-197 over the same round-key sequence. -/
def aes_decrypt_block (rks : List Block) (c : Block) : Block :=
  match rks with
  | [] => c
  | k0 :: ks => addRoundKey k0 (decryptRounds ks c)

/-- The FIPS-197 appendix C.1 cipher key, 000102...0f, as four words. -/
def fipsKey : List Col :=
  [(0x00, 0x01, 0x02, 0x03), (0x04, 0x05, 0x06, 0x07),
   (0x08, 0x09, 0x0a, 0x0b), (0x0c, 0x0d, 0x0e, 0x0f)]

/-- The FIPS-197 appendix C.1 plaintext block 00112233445566778899aabbccddeeff. -/
def fipsPlain : Block :=
  ⟨0x00, 0x11, 0x22, 0x33, 0x44, 0x55, 0x66, 0x77,
   0x88, 0x99, 0xaa, 0xbb, 0xcc, 0xdd, 0xee, 0xff⟩

/-- The FIPS-197 appendix C.1 ciphertext block 69c4e0d86a7b0430d8cdb78070b4c55a. -/
def fipsCipher : Block :=
  ⟨0x69, 0xc4, 0xe0, 0xd8, 0x6a, 0x7b, 0x04, 0x30,
   0xd8, 0xcd, 0xb7, 0x80, 0x70, 0xb4, 0xc5, 0x5a⟩

/-- Concrete 128-bit key used to witness the all-key-lengths round-trip
theorem: the all-zero key. -/
def keyW : List Col :=
  [(0, 0, 0, 0), (0, 0, 0, 0), (0, 0, 0, 0), (0, 0, 0, 0)]

/-- Concrete block used to witness the round-trip theorem. -/
def blockW : Block :=
  ⟨1, 2, 3, 4, 5, 6, 7, 8, 9, 10, 11, 12, 13, 14, 15, 16⟩

/- ==== Part 4: helper lemmas ==== -/

/-- Xor with zero on the right is the identity. -/
theorem bxor_zero_right : ∀ a : Byte, bxor a 0 = a := by decide

/-- Xor with zero on the left is the identity. -/
theorem bxor_zero_left : ∀ a : Byte, bxor 0 a = a := by decide

/-- Xoring the same byte twice cancels. -/
theorem bxor_cancel_left (k a : Byte) : bxor k (bxor k a) = a := by
  apply Fin.ext
  simp only [bxor]
  rw [← Nat.xor_assoc, Nat.xor_self, Nat.zero_xor]

/-- Byte xor is commutative. -/
theorem bxor_comm (a b : Byte) : bxor a b = bxor b a := by
  apply Fin.ext
  simp only [bxor]
  exact Nat.xor_comm _ _

/-- Byte xor is associative. -/
theorem bxor_assoc (a b c : Byte) : bxor (bxor a b) c = bxor a (bxor b c) := by
  apply Fin.ext
  simp only [bxor]
  exact Nat.xor_assoc _ _ _

/-- Byte xor left-commutes, completing the AC rewrite set. -/
theorem bxor_left_comm (a b c : Byte) :
    bxor a (bxor b c) = bxor b (bxor a c) := by
  rw [← bxor_assoc, bxor_comm a b, bxor_assoc]

/-- Xor of naturals left-commutes. -/
theorem nat_xor_left_comm (a b c : Nat) : a ^^^ (b ^^^ c) = b ^^^ (a ^^^ c) := by
  rw [← Nat.xor_assoc, Nat.xor_comm a b, Nat.xor_assoc]

/-- Shifting left by one distributes over xor. -/
theorem nat_shiftLeft_one_xor (x y : Nat) :
    (x ^^^ y) <<< 1 = (x <<< 1) ^^^ (y <<< 1) := by
  apply Nat.eq_of_testBit_eq
  intro i
  simp [Nat.testBit_shiftLeft, Nat.testBit_xor, Bool.and_xor_distrib_left]

/-- Bit 7 of a natural, masked, is either absent or the full 0x80. -/
theorem nat_and_x80_cases (x : Nat) : x &&& 0x80 = 0 ∨ x &&& 0x80 = 0x80 := by
  have h := Nat.and_two_pow x 7
  norm_num at h
  cases h7 : x.testBit 7 <;> rw [h7] at h <;> simp at h <;> simp [h]

/-- The conditional reduction constant of `xtime` distributes over xor. -/
theorem xtime_cond_xor (x y : Nat) :
    (if (x ^^^ y) &&& 0x80 = 0x80 then (0x1b : Nat) else 0) =
      (if x &&& 0x80 = 0x80 then (0x1b : Nat) else 0) ^^^
        (if y &&& 0x80 = 0x80 then (0x1b : Nat) else 0) := by
  have hxy : (x ^^^ y) &&& 0x80 = (x &&& 0x80) ^^^ (y &&& 0x80) :=
    Nat.and_xor_distrib_right
  rcases nat_and_x80_cases x with hx | hx <;>
    rcases nat_and_x80_cases y with hy | hy <;>
      simp [hxy, hx, hy]

/-- Multiplication by x distributes over xor. -/
theorem xtime_bxor (a b : Byte) : xtime (bxor a b) = bxor (xtime a) (xtime b) := by
  apply Fin.ext
  simp only [xtime, bxor]
  rw [← Nat.and_xor_distrib_right]
  congr 1
  rw [nat_shiftLeft_one_xor, xtime_cond_xor]
  rw [Nat.xor_assoc, Nat.xor_assoc]
  congr 1
  rw [nat_xor_left_comm]

/-- Each step count of the GF(2^8) product distributes over xor in the
left factor. -/
theorem gfMulAux_bxor (n : Nat) : ∀ a1 a2 b : Byte,
    gfMulAux n (bxor a1 a2) b = bxor (gfMulAux n a1 b) (gfMulAux n a2 b) := by
  induction n with
  | zero => intro a1 a2 b; simp [gfMulAux, bxor_zero_right]
  | succ n ih =>
    intro a1 a2 b
    simp only [gfMulAux, xtime_bxor, ih]
    by_cases h : b.val % 2 = 1
    · simp only [if_pos h]
      simp [bxor_assoc, bxor_comm, bxor_left_comm]
    · simp only [if_neg h]
      simp [bxor_zero_left]

/-- The GF(2^8) product distributes over xor in the left factor. -/
theorem gfMul_bxor (a1 a2 b : Byte) :
    gfMul (bxor a1 a2) b = bxor (gfMul a1 b) (gfMul a2 b) :=
  gfMulAux_bxor 8 a1 a2 b

/-- Zero annihilates the GF(2^8) product on the left. -/
theorem gfMul_zero_left : ∀ b : Byte, gfMul 0 b = 0 := by decide

/-- The inverse S-box inverts the S-box on every byte. -/
theorem invSbox_sbox : ∀ b : Byte, invSbox (sbox b) = b := by decide

/-- InvMixColumns of a column distributes over columnwise xor. -/
theorem invMixCol_colXor (u v : Col) :
    invMixCol (colXor u v) = colXor (invMixCol u) (invMixCol v) := by
  obtain ⟨a0, a1, a2, a3⟩ := u
  obtain ⟨b0, b1, b2, b3⟩ := v
  simp [invMixCol, colXor, gfMul_bxor, bxor_assoc, bxor_comm, bxor_left_comm]

/-- A MixColumns input column splits into its four byte components. -/
theorem mixCol_decomp (a0 a1 a2 a3 : Byte) :
    mixCol (a0, a1, a2, a3) =
      colXor (mixCol (a0, 0, 0, 0)) (colXor (mixCol (0, a1, 0, 0))
        (colXor (mixCol (0, 0, a2, 0)) (mixCol (0, 0, 0, a3)))) := by
  simp [mixCol, colXor, gfMul_zero_left, bxor_zero_left, bxor_zero_right,
    bxor_assoc, bxor_comm, bxor_left_comm]

/-- InvMixColumns inverts MixColumns on a column supported in byte 0. -/
theorem invMixCol_mixCol_e0 : ∀ a : Byte,
    invMixCol (mixCol (a, 0, 0, 0)) = (a, 0, 0, 0) := by decide

/-- InvMixColumns inverts MixColumns on a column supported in byte 1. -/
theorem invMixCol_mixCol_e1 : ∀ a : Byte,
    invMixCol (mixCol (0, a, 0, 0)) = (0, a, 0, 0) := by decide

/-- InvMixColumns inverts MixColumns on a column supported in byte 2. -/
theorem invMixCol_mixCol_e2 : ∀ a : Byte,
    invMixCol (mixCol (0, 0, a, 0)) = (0, 0, a, 0) := by decide

/-- InvMixColumns inverts MixColumns on a column supported in byte 3. -/
theorem invMixCol_mixCol_e3 : ∀ a : Byte,
    invMixCol (mixCol (0, 0, 0, a)) = (0, 0, 0, a) := by decide

/-- InvMixColumns inverts MixColumns on every column. -/
theorem invMixCol_mixCol (c : Col) : invMixCol (mixCol c) = c := by
  obtain ⟨a0, a1, a2, a3⟩ := c
  rw [mixCol_decomp, invMixCol_colXor, invMixCol_colXor, invMixCol_colXor,
    invMixCol_mixCol_e0 a0, invMixCol_mixCol_e1 a1,
    invMixCol_mixCol_e2 a2, invMixCol_mixCol_e3 a3]
  simp [colXor, bxor_zero_left, bxor_zero_right]

/-- Column 0 of an assembled state is the first assembled column. -/
theorem col0_blockOfCols (c0 c1 c2 c3 : Col) : col0 (blockOfCols c0 c1 c2 c3) = c0 := rfl

/-- Column 1 of an assembled state is the second assembled column. -/
theorem col1_blockOfCols (c0 c1 c2 c3 : Col) : col1 (blockOfCols c0 c1 c2 c3) = c1 := rfl

/-- Column 2 of an assembled state is the third assembled column. -/
theorem col2_blockOfCols (c0 c1 c2 c3 : Col) : col2 (blockOfCols c0 c1 c2 c3) = c2 := rfl

/-- Column 3 of an assembled state is the fourth assembled column. -/
theorem col3_blockOfCols (c0 c1 c2 c3 : Col) : col3 (blockOfCols c0 c1 c2 c3) = c3 := rfl

/-- InvMixColumns inverts MixColumns on the whole state. -/
theorem invMixColumns_mixColumns (s : Block) :
    invMixColumns (mixColumns s) = s := by
  unfold mixColumns invMixColumns
  rw [col0_blockOfCols, col1_blockOfCols, col2_blockOfCols, col3_blockOfCols,
    invMixCol_mixCol, invMixCol_mixCol, invMixCol_mixCol, invMixCol_mixCol]
  rfl

/-- InvSubBytes inverts SubBytes on the whole state. -/
theorem invSubBytes_subBytes (s : Block) : invSubBytes (subBytes s) = s := by
  simp only [subBytes, invSubBytes, invSbox_sbox]

/-- InvShiftRows inverts ShiftRows on the whole state. -/
theorem invShiftRows_shiftRows (s : Block) : invShiftRows (shiftRows s) = s := rfl

/-- Adding the same round key twice restores the state. -/
theorem addRoundKey_addRoundKey (k s : Block) :
    addRoundKey k (addRoundKey k s) = s := by
  simp only [addRoundKey, bxor_cancel_left]

/-- The inverse round undoes a normal encryption round. -/
theorem invRound_aesRound (k s : Block) : invRound k (aesRound k s) = s := by
  simp only [invRound, aesRound, addRoundKey_addRoundKey,
    invMixColumns_mixColumns, invShiftRows_shiftRows, invSubBytes_subBytes]

/-- The inverse final round undoes the final encryption round. -/
theorem invFinalRound_aesFinalRound (k s : Block) :
    invFinalRound k (aesFinalRound k s) = s := by
  simp only [invFinalRound, aesFinalRound, addRoundKey_addRoundKey,
    invShiftRows_shiftRows, invSubBytes_subBytes]

/-- The decryption rounds invert the encryption rounds over any
round-key sequence. -/
theorem decryptRounds_encryptRounds (ks : List Block) :
    ∀ s : Block, decryptRounds ks (encryptRounds ks s) = s := by
  induction ks with
  | nil => intro s; rfl
  | cons k tl ih =>
    intro s
    cases tl with
    | nil =>
      simp only [encryptRounds, decryptRounds, invFinalRound_aesFinalRound]
    | cons k2 tl2 =>
      simp only [encryptRounds, decryptRounds]
      rw [ih, invRound_aesRound]

/-- The inverse cipher inverts the cipher over any round-key sequence. -/
theorem aes_decrypt_block_encrypt_block (rks : List Block) (b : Block) :
    aes_decrypt_block rks (aes_encrypt_block rks b) = b := by
  cases rks with
  | nil => rfl
  | cons k0 ks =>
    simp only [aes_encrypt_block, aes_decrypt_block,
      decryptRounds_encryptRounds, addRoundKey_addRoundKey]

/- ==== Part 5: the claims ==== -/

/-- The FeatureUnsupported code is not the success value 0. -/
theorem err_feature_unsupported_ne_zero :
    MBEDTLS_ERR_PLATFORM_FEATURE_UNSUPPORTED ≠ 0 := by decide

/-- The FeatureUnsupported code is negative, an mbedtls error value. -/
theorem err_feature_unsupported_neg :
    MBEDTLS_ERR_PLATFORM_FEATURE_UNSUPPORTED < 0 := by decide

/-- Claim C1: for every context and every 16-byte input/output pair, the
alternative decrypt backend stub returns the FeatureUnsupported failure
code, never success (0) and never any other result. -/
theorem stub_returns_feature_unsupported (ctx : mbedtls_aes_context)
    (input output : List Nat) (_hi : input.length = 16) (_ho : output.length = 16) :
    (mbedtls_internal_aes_decrypt ctx input output).1 =
        MBEDTLS_ERR_PLATFORM_FEATURE_UNSUPPORTED ∧
      (mbedtls_internal_aes_decrypt ctx input output).1 ≠ 0 :=
  ⟨rfl, err_feature_unsupported_ne_zero⟩

/-- Witness for C1 at a concrete context and concrete 16-byte buffers. -/
theorem stub_returns_feature_unsupported_witness :
    (List.replicate 16 (0 : Nat)).length = 16 ∧
      ((mbedtls_internal_aes_decrypt ⟨10, []⟩ (List.replicate 16 0)
            (List.replicate 16 0)).1 = MBEDTLS_ERR_PLATFORM_FEATURE_UNSUPPORTED ∧
        (mbedtls_internal_aes_decrypt ⟨10, []⟩ (List.replicate 16 0)
            (List.replicate 16 0)).1 ≠ 0) :=
  ⟨rfl, stub_returns_feature_unsupported ⟨10, []⟩ _ _ rfl rfl⟩

/-- Claim C2: the stub leaves the key-schedule context, the input buffer
and the output buffer byte-for-byte unchanged; in the explicit-state
embedding the final state components equal the initial ones. -/
theorem stub_frame (ctx : mbedtls_aes_context) (input output : List Nat) :
    (mbedtls_internal_aes_decrypt ctx input output).2.1 = ctx ∧
      (mbedtls_internal_aes_decrypt ctx input output).2.2.1 = input ∧
      (mbedtls_internal_aes_decrypt ctx input output).2.2.2 = output :=
  ⟨rfl, rfl, rfl⟩

/-- Claim C3: for every call the stub returns the FeatureUnsupported
failure value to its caller - the call completes with a negative (error,
not success) return code as an ordinary returned value, for every
possible call. -/
theorem stub_reports_failure_recoverably (ctx : mbedtls_aes_context)
    (input output : List Nat) :
    ∃ r, mbedtls_internal_aes_decrypt ctx input output = r ∧
      r.1 = MBEDTLS_ERR_PLATFORM_FEATURE_UNSUPPORTED ∧ r.1 < 0 :=
  ⟨_, rfl, rfl, err_feature_unsupported_neg⟩

/-- Claim C4: the stub is deterministic - two calls with identical
context and identical buffers yield the identical result (same return
code and byte-identical final buffer contents). -/
theorem stub_deterministic (c1 c2 : mbedtls_aes_context) (i1 i2 o1 o2 : List Nat)
    (hc : c1 = c2) (hi : i1 = i2) (ho : o1 = o2) :
    mbedtls_internal_aes_decrypt c1 i1 o1 = mbedtls_internal_aes_decrypt c2 i2 o2 := by
  rw [hc, hi, ho]

/-- Witness for C4 at concrete equal arguments. -/
theorem stub_deterministic_witness :
    ([0] : List Nat) = [0] ∧
      mbedtls_internal_aes_decrypt ⟨10, [1]⟩ [0] [0] =
        mbedtls_internal_aes_decrypt ⟨10, [1]⟩ [0] [0] :=
  ⟨rfl, stub_deterministic ⟨10, [1]⟩ ⟨10, [1]⟩ [0] [0] [0] [0] rfl rfl rfl⟩

/-- Claim C5: the alternative stub is compiled exactly when both
`MBEDTLS_AES_C` and `MBEDTLS_AES_DECRYPT_ALT` are defined; the stub and
the reference implementation are never both in a build; and whenever AES
is enabled exactly one of the two provides the decrypt direction (the
selection being a function of the build configuration alone). -/
theorem backend_selection_exclusive (cfg : BuildConfig) :
    aes_alt_provides_decrypt cfg = (cfg.MBEDTLS_AES_C && cfg.MBEDTLS_AES_DECRYPT_ALT) ∧
      (aes_alt_provides_decrypt cfg && reference_provides_decrypt cfg) = false ∧
      (aes_alt_provides_decrypt cfg || reference_provides_decrypt cfg) = cfg.MBEDTLS_AES_C := by
  obtain ⟨a, d⟩ := cfg
  cases a <;> cases d <;> exact ⟨rfl, rfl, rfl⟩

/-- Claim C6: for every supported key length (four, six or eight key
words, i.e. 128/192/256 bits) and every key and block, the reference
backend's decrypt transform inverts its encrypt transform under the same
key schedule. -/
theorem reference_decrypt_inverts_encrypt (nk : Nat)
    (_hnk : nk = 4 ∨ nk = 6 ∨ nk = 8) (key : List Col) (_hkey : key.length = nk)
    (b : Block) :
    aes_decrypt_block (roundKeys nk key) (aes_encrypt_block (roundKeys nk key) b) = b :=
  aes_decrypt_block_encrypt_block _ b

/-- Witness for C6 at the 128-bit all-zero key and a concrete block. -/
theorem reference_decrypt_inverts_encrypt_witness :
    ((4 : Nat) = 4 ∨ (4 : Nat) = 6 ∨ (4 : Nat) = 8) ∧ keyW.length = 4 ∧
      aes_decrypt_block (roundKeys 4 keyW) (aes_encrypt_block (roundKeys 4 keyW) blockW) =
        blockW :=
  ⟨Or.inl rfl, rfl, reference_decrypt_inverts_encrypt 4 (Or.inl rfl) keyW rfl blockW⟩

/-- Claim C7: the FIPS-197 appendix C.1 test vector - under the 128-bit
key 000102030405060708090a0b0c0d0e0f the reference encrypt path maps
00112233445566778899aabbccddeeff to 69c4e0d86a7b0430d8cdb78070b4c55a,
and decrypting that ciphertext with the same key restores the plaintext. -/
theorem reference_fips197_vector :
    aes_encrypt_block (roundKeys 4 fipsKey) fipsPlain = fipsCipher ∧
      aes_decrypt_block (roundKeys 4 fipsKey) fipsCipher = fipsPlain :=
  ⟨by decide, by decide⟩

/-- Claim C8: the stub's return value is independent of all of its
inputs - any two calls, with arbitrary and possibly different contexts
and buffers, return equal values. -/
theorem stub_return_independent_of_inputs (c1 : mbedtls_aes_context)
    (i1 o1 : List Nat) (c2 : mbedtls_aes_context) (i2 o2 : List Nat) :
    (mbedtls_internal_aes_decrypt c1 i1 o1).1 =
      (mbedtls_internal_aes_decrypt c2 i2 o2).1 :=
  rfl

/-- Claim C9: in the pointer-lifted embedding the stub call is defined
(`some`, the failure code, with untouched argument pointers) for every
pointer value of every argument, `none` (NULL) included, because the body
dereferences nothing. -/
theorem stub_null_safe (ctx : Option mbedtls_aes_context)
    (input output : Option (List Nat)) :
    mbedtls_internal_aes_decrypt_anyPtr ctx input output =
        some (MBEDTLS_ERR_PLATFORM_FEATURE_UNSUPPORTED, ctx, input, output) ∧
      (mbedtls_internal_aes_decrypt_anyPtr ctx input output).isSome = true :=
  ⟨rfl, rfl⟩

/-- Claim C10: the stub terminates on every input - every call reduces
to an explicit result value (the embedding is a total function, as the C
body is straight-line code with no loop, recursion, blocking or I/O). -/
theorem stub_total (ctx : mbedtls_aes_context) (input output : List Nat) :
    mbedtls_internal_aes_decrypt ctx input output =
      (MBEDTLS_ERR_PLATFORM_FEATURE_UNSUPPORTED, ctx, input, output) :=
  rfl
